import Mathlib

/-!
A verification development for the django-timetracker repository.

The embedding follows the source files:
* `timetracker/utils/calendar_utils.py` — `validate_time`, `gen_calendar`,
  `ajax_add_entry`, `ajax_change_entry`, `mass_holidays`;
* `timetracker/views.py` — the undecorated `ajax` handler;
* `reporting/views.py` — the `ot_by_year` cell rendering;
* `tracker/tests.py` — the literal scenarios for the balance and overtime
  rules.

`tracker/models.py` and `utils/datemaps.py` are not part of the given
sources; the pieces of them that the claims need (the database uniqueness
constraint on (user, entry_date), `TrackingEntry.time_difference`,
`TrackingEntry.is_overtime`, `Tbluser.get_holiday_balance`, `MONTH_MAP`)
are modelled from the specification and the unit tests, and are marked as
such in their doc comments.

Machine representation notes used throughout:
* a `datetime.time` value is embedded as a `PTime` (hour, minute); every
  time value appearing in the sources has zero seconds;
* an `HH:MM` time string is embedded as its `parse_time` image, a pair of
  naturals; a failure of `int(...)` or of the `datetime.time` constructor
  (a Python `ValueError`) surfaces as `none`;
* a `YYYY-MM-DD` date string is embedded as its parsed `PDate` triple,
  the value the Django date field coerces it to;
* a database table is a list of rows, in insertion order.
-/

namespace Timetracker

/-- A `datetime.time` value restricted to (hour, minute); all time values in
the sources have zero seconds. -/
structure PTime where
  hour : Nat
  minute : Nat
deriving DecidableEq

/-- The `datetime.time(hour, minute)` constructor: out-of-range arguments
raise `ValueError`, embedded as `none`. -/
def mkTime (h m : Nat) : Option PTime :=
  if h < 24 ∧ m < 60 then some ⟨h, m⟩ else none

/-- Python `<` on `datetime.time`: lexicographic on (hour, minute). -/
def timeLtB (a b : PTime) : Bool :=
  a.hour < b.hour || (a.hour == b.hour && a.minute < b.minute)

/-- Python `>` on `datetime.time`: lexicographic on (hour, minute). -/
def timeGtB (a b : PTime) : Bool :=
  b.hour < a.hour || (b.hour == a.hour && b.minute < a.minute)

def PTime.toMinutes (t : PTime) : Nat :=
  60 * t.hour + t.minute

/-- `calendar_utils.validate_time(start, end)`: parse both `HH:MM` strings
(embedded here as their parsed hour/minute pairs) into `datetime.time`
values and test strict `<`.  A `ValueError` from time construction is
`none`; the caller `ajax_add_entry` turns it into its "Date Error" reply. -/
def validate_time (start endT : Nat × Nat) : Option Bool :=
  match mkTime start.1 start.2, mkTime endT.1 endT.2 with
  | some s, some e => some (timeLtB s e)
  | _, _ => none

/-- A calendar date, the value a `YYYY-MM-DD` string is coerced to by the
date field layer. -/
structure PDate where
  year : Nat
  month : Nat
  day : Nat
deriving DecidableEq

/-- A `TrackingEntry` row of the tracking table. -/
structure TRow where
  id : Nat
  user_id : Nat
  entry_date : PDate
  start_time : PTime
  end_time : PTime
  breaks : PTime
  daytype : String
deriving DecidableEq

/-- The (user, date) key test that the uniqueness constraint is about. -/
def keyMatch (u : Nat) (d : PDate) (r : TRow) : Bool :=
  r.user_id == u && r.entry_date == d

/-- The invariant of the tracking table: at most one row per (user, date). -/
def uniqueEntryKeys (store : List TRow) : Prop :=
  ∀ u d, store.countP (keyMatch u d) ≤ 1

/-- The auto-increment primary key for a fresh row. -/
def nextId (store : List TRow) : Nat :=
  store.foldl (fun acc r => max acc r.id) 0 + 1

/-- The only `IntegrityError` the modelled constraint raises is the
duplicate-entry error (MySQL code 1062, `database_errors.DUPLICATE_ENTRY`). -/
inductive DBErr where
  | duplicate
deriving DecidableEq

/-- Modelled from the spec: the uniqueness constraint on (user, entry_date)
for `TrackingEntry` (`tracker/models.py` is not among the given sources).
`save()` on a fresh row inserts it; if a row with the same (user, date) key
already exists the insert fails with the duplicate-entry `IntegrityError`
and the table is left unchanged — a recoverable error, not an overwrite. -/
def insertEntry (store : List TRow) (r : TRow) : Except DBErr (List TRow) :=
  if store.any (keyMatch r.user_id r.entry_date) then
    .error .duplicate
  else
    .ok (store ++ [r])

/-- Modelled from the spec: Django `Model.save()` with an explicit primary
key (`TrackingEntry(id=..., ...)` as used by `ajax_change_entry`): update
the row with that pk when present, otherwise insert; the (user, date)
uniqueness constraint applies in both cases. -/
def saveByPk (store : List TRow) (r : TRow) : Except DBErr (List TRow) :=
  if store.any (fun q => q.id == r.id) then
    if store.any (fun q => !(q.id == r.id) && keyMatch r.user_id r.entry_date q) then
      .error .duplicate
    else
      .ok (store.map (fun q => if q.id == r.id then r else q))
  else
    if store.any (keyMatch r.user_id r.entry_date) then
      .error .duplicate
    else
      .ok (store ++ [r])

/-- The first row matching a (user, date) key, if any. -/
def lookupEntry (store : List TRow) (u : Nat) (d : PDate) : Option TRow :=
  store.find? (keyMatch u d)

inductive GetErr where
  | doesNotExist
  | multipleObjects
deriving DecidableEq

/-- Modelled from the spec: `TrackingEntry.objects.get(user_id=..,
entry_date=..)` — exactly one matching row is returned; none raises
`DoesNotExist`, several raise `MultipleObjectsReturned`. -/
def getEntry (store : List TRow) (u : Nat) (d : PDate) : Except GetErr TRow :=
  match store.filter (keyMatch u d) with
  | [] => .error .doesNotExist
  | [e] => .ok e
  | _ => .error .multipleObjects

/-- Deleting the row `objects.get` returned for a (user, date) key; under
the uniqueness constraint exactly that row matches the key. -/
def removeMatching (store : List TRow) (u : Nat) (d : PDate) : List TRow :=
  store.filter (fun r => !(keyMatch u d r))

/-- The `mass_holidays` duplicate handler: set `daytype` on the fetched row
and `save()` it — an UPDATE by primary key touching only that column. -/
def updateDaytype (store : List TRow) (u : Nat) (d : PDate) (dt : String) : List TRow :=
  store.map (fun r => if keyMatch u d r then
    { r with daytype := dt }
  else r)

/-- Modelled from the spec: `TrackingEntry.time_difference` — the signed
difference (in minutes) between the worked duration
(end time − start time − break duration) and the user's standard shift
length (`tracker/models.py` is not among the given sources; the rule is
Section 4.3 of the spec and `TrackingEntryTestCase` of
`src/tracker/tests.py`). -/
def workedMinutes (start endT breaks : PTime) : Int :=
  (endT.toMinutes : Int) - (start.toMinutes : Int) - (breaks.toMinutes : Int)

/-- Modelled from the spec: the reported signed time-difference, worked
minutes minus the shift length in minutes. -/
def time_difference (start endT breaks shiftlength : PTime) : Int :=
  workedMinutes start endT breaks - (shiftlength.toMinutes : Int)

/-- Modelled from the spec: `TrackingEntry.is_overtime` — the entry is
overtime iff its worked duration strictly exceeds the user's standard
shift length. -/
def is_overtime (start endT breaks shiftlength : PTime) : Bool :=
  workedMinutes start endT breaks > (shiftlength.toMinutes : Int)

/-- Modelled from the spec: the signed holiday-balance contribution of a
day-type code (`tracker/models.py` is not among the given sources).  The
spec fixes the three effects (neutral, decrement, increment); the
magnitudes are fixed by `UserTestCase` of `src/tracker/tests.py`:
three PUWRK entries move 20 to 26 (+2 each), three RETRN entries move 20
to 17 (−1 each), and the HOLIS/PUWRK/RETRN mix is net neutral, so HOLIS
contributes −1; all other day types are neutral. -/
def holiday_contribution (daytype : String) : Int :=
  if daytype = "HOLIS" then -1
  else if daytype = "PUWRK" then 2
  else if daytype = "RETRN" then -1
  else 0

/-- Modelled from the spec: `Tbluser.get_holiday_balance(year)` — the
user's stored holiday-balance field plus the signed contributions of the
user's entries of that year. -/
def get_holiday_balance (holiday_balance : Int) (uid : Nat) (store : List TRow) (year : Nat) : Int :=
  holiday_balance +
    ((store.filter (fun r => r.user_id == uid && r.entry_date.year == year)).map
      (fun r => holiday_contribution r.daytype)).sum

/-! ## The calendar grid (`gen_calendar`) -/

/-- Gregorian leap-year rule, as in Python's `calendar` module. -/
def isLeap (y : Nat) : Bool :=
  y % 4 == 0 && (y % 100 != 0 || y % 400 == 0)

/-- Days in a month, as in Python's `calendar.monthrange`. -/
def daysInMonth (y m : Nat) : Nat :=
  if m == 2 then (if isLeap y then 29 else 28)
  else if m == 4 || m == 6 || m == 9 || m == 11 then 30
  else 31

/-- Days in the months of year `y` strictly before month `m`. -/
def daysBeforeMonth (y m : Nat) : Nat :=
  (List.range (m - 1)).foldl (fun acc i => acc + daysInMonth y (i + 1)) 0

/-- The proleptic-Gregorian ordinal of a date, `datetime.date.toordinal`:
day 1 is 0001-01-01. -/
def ordinalDate (y m d : Nat) : Nat :=
  365 * (y - 1) + (y - 1) / 4 - (y - 1) / 100 + (y - 1) / 400 + daysBeforeMonth y m + d

/-- `calendar.weekday(y, m, d)`: 0 is Monday (0001-01-01 is a Monday). -/
def weekday (y m d : Nat) : Nat :=
  (ordinalDate y m d - 1) % 7

/-- The day numbers of the month grid before chunking into weeks: leading
zeros for the tail of the previous month, the days `1..n`, trailing zeros
completing the last week.  Monday is the first day of a week, as in
Python's `calendar` module default. -/
def monthcalendarFlat (y m : Nat) : List Nat :=
  let first := weekday y m 1
  let n := daysInMonth y m
  let padEnd := (7 - (first + n) % 7) % 7
  List.replicate first 0 ++ (List.range n).map (fun k => k + 1) ++ List.replicate padEnd 0

/-- Split a list into consecutive runs of seven. -/
def chunk7 : List α → List (List α)
  | [] => []
  | a :: rest => ((a :: rest).take 7) :: chunk7 ((a :: rest).drop 7)
termination_by l => l.length
decreasing_by simp; omega

/-- `calendar.monthcalendar(y, m)`: the weeks of the month, each a run of
seven day numbers, extraneous days as 0. -/
def monthcalendar (y m : Nat) : List (List Nat) :=
  chunk7 (monthcalendarFlat y m)

/-- One `<td>` cell of the generated calendar table: a day annotated with
its tracking entry, a clickable empty in-month day, or a blank placeholder
for an extraneous day of an adjacent month. -/
inductive CalCell where
  | entry (day : Nat) (e : TRow)
  | emptyDay (day : Nat)
  | blank
deriving DecidableEq

/-- The CSS class attribute the cell is rendered with. -/
def cellClass : CalCell → String
  | .entry _ e => "day-class " ++ e.daytype
  | .emptyDay _ => "day-class empty-day"
  | .blank => "empty"

/-- The text content the cell is rendered with. -/
def cellContent : CalCell → String
  | .entry d _ => Nat.repr d
  | .emptyDay d => Nat.repr d
  | .blank => "&nbsp"

/-- The in-month day number a cell shows, if any. -/
def cellDay : CalCell → Option Nat
  | .entry d _ => some d
  | .emptyDay d => some d
  | .blank => none

/-- The cell `gen_calendar` emits for one slot of `monthcalendar`: query
the month's entries for the day; an entry gives the annotated cell, no
entry gives the clickable empty day for an in-month day and the blank
placeholder for a 0 slot. -/
def genCell (entries : Nat → Option TRow) (d : Nat) : CalCell :=
  match entries d with
  | some e => .entry d e
  | none => if d = 0 then .blank else .emptyDay d

/-- Modelled from the spec: the key set of `datemaps.MONTH_MAP`
(`utils/datemaps.py` is not among the given sources).  `gen_calendar`
indexes it with `month - 1` and names months January..December, and the
spec fixes valid months to 1–12, so the keys are 0..11. -/
def MONTH_MAP_keys : List Int :=
  (List.range 12).map (fun k => (k : Int))

inductive CalErr where
  | http404
deriving DecidableEq

/-- `calendar_utils.gen_calendar(year, month, day, user)` reduced to the
data it computes: raise `Http404` unless `month - 1` is a `MONTH_MAP` key,
then render each week of `calendar.monthcalendar(year, month)` into a row
of cells, looking each day up in the user's entries for the month (the
`day` argument does not influence the grid; the HTML glue around the rows
is presentation). -/
def gen_calendar (year : Nat) (month : Int) (entries : Nat → Option TRow) :
    Except CalErr (List (List CalCell)) :=
  if (month - 1) ∈ MONTH_MAP_keys then
    .ok ((monthcalendar year month.toNat).map (List.map (genCell entries)))
  else
    .error .http404

/-- The entries-by-day lookup `gen_calendar` performs: the month's rows for
the user, fetched per day number. -/
def storeEntries (store : List TRow) (u : Nat) (y m : Nat) : Nat → Option TRow :=
  fun d => store.find? (fun r => r.user_id == u && r.entry_date == PDate.mk y m d)

/-! ## The AJAX handlers -/

/-- Conditions that abort the request instead of being reported in the
JSON reply: an uncaught `Http404`, `ValueError`, `DoesNotExist`,
`MultipleObjectsReturned`, or a bare re-raised exception. -/
inductive AbortErr where
  | http404
  | valueError
  | doesNotExist
  | multipleObjects
  | exceptionRaised
deriving DecidableEq

/-- The JSON reply of `ajax_add_entry` / `ajax_change_entry`: a dict that
starts empty, so every field is optional — an error reply carries only
`error`, a success reply only `success` and `calendar`. -/
structure Envelope where
  success : Option Bool
  error : Option String
  calendar : Option (List (List CalCell))
deriving DecidableEq

/-- The form data of `ajax_add_entry`, field strings already parsed as
described in the file header. -/
structure AddForm where
  entry_date : PDate
  start_time : Nat × Nat
  end_time : Nat × Nat
  daytype : String
  breaks : PTime
  user_id : Nat
deriving DecidableEq

/-- The row `ajax_add_entry` builds from its form (`TrackingEntry(**form)`). -/
def addFormRow (store : List TRow) (form : AddForm) : TRow :=
  { id := nextId store
    user_id := form.user_id
    entry_date := form.entry_date
    start_time := ⟨form.start_time.1, form.start_time.2⟩
    end_time := ⟨form.end_time.1, form.end_time.2⟩
    breaks := form.breaks
    daytype := form.daytype }

/-- The trailing part shared by the calendar handlers: regenerate the
month's calendar for the entry date; an `Http404` from `gen_calendar`
aborts the request, otherwise the success reply carries the calendar. -/
def calendarTail (uid : Nat) (date : PDate) (s : List TRow) :
    Except AbortErr Envelope × List TRow :=
  match gen_calendar date.year (date.month : Int) (storeEntries s uid date.year date.month) with
  | .error _ => (.error .http404, s)
  | .ok g => (.ok ⟨some true, none, some g⟩, s)

/-- `calendar_utils.ajax_add_entry`: validate the times ("Date Error" on a
`ValueError`, "Start time after end time" on failed validation), save the
new entry (the duplicate-entry `IntegrityError` is reported in the reply),
then regenerate the calendar.  The pair carries the database state, which
persists even when the request aborts. -/
def ajax_add_entry (store : List TRow) (form : AddForm) :
    Except AbortErr Envelope × List TRow :=
  match validate_time form.start_time form.end_time with
  | none => (.ok ⟨none, some "Date Error", none⟩, store)
  | some false => (.ok ⟨none, some "Start time after end time", none⟩, store)
  | some true =>
    match insertEntry store (addFormRow store form) with
    | .error .duplicate =>
        (.ok ⟨none, some "There is a duplicate entry for this value", none⟩, store)
    | .ok s' => calendarTail form.user_id form.entry_date s'

/-- The form data of `ajax_change_entry`; `hidden_id` is the primary key of
the entry to change, `none` when the field is absent or falsy. -/
structure ChangeForm where
  entry_date : PDate
  start_time : Nat × Nat
  end_time : Nat × Nat
  daytype : String
  breaks : PTime
  hidden_id : Option Nat
  user_id : Nat
deriving DecidableEq

/-- The row `ajax_change_entry` saves: the form's fields under the posted
primary key. -/
def changeFormRow (pk : Nat) (form : ChangeForm) : TRow :=
  { id := pk
    user_id := form.user_id
    entry_date := form.entry_date
    start_time := ⟨form.start_time.1, form.start_time.2⟩
    end_time := ⟨form.end_time.1, form.end_time.2⟩
    breaks := form.breaks
    daytype := form.daytype }

/-- `calendar_utils.ajax_change_entry`: the same time validation as
`ajax_add_entry`; with a truthy `hidden-id` the posted fields are saved
under that primary key, any exception from the save being reported as
`str(error)` in the reply (for the modelled constraint that exception is
the duplicate-entry `IntegrityError`, whose message starts "Duplicate
entry"); then the calendar is regenerated. -/
def ajax_change_entry (store : List TRow) (form : ChangeForm) :
    Except AbortErr Envelope × List TRow :=
  match validate_time form.start_time form.end_time with
  | none => (.ok ⟨none, some "Date Error", none⟩, store)
  | some false => (.ok ⟨none, some "Start time after end time", none⟩, store)
  | some true =>
    match form.hidden_id with
    | none => calendarTail form.user_id form.entry_date store
    | some pk =>
      match saveByPk store (changeFormRow pk form) with
      | .error .duplicate => (.ok ⟨none, some "Duplicate entry", none⟩, store)
      | .ok s' => calendarTail form.user_id form.entry_date s'

/-- The JSON reply of the undecorated `views.ajax` handler: initialised as
`{"success": False, "error": "", "calendar": ""}`, so every field is
always present. -/
structure VEnvelope where
  success : Bool
  error : String
  calendar : Option (List (List CalCell))
deriving DecidableEq

/-- The form data of the undecorated `views.ajax` handler: no breaks field
(the handler hard-codes "00:15:00") and no session user (it hard-codes
user id 1). -/
structure VForm where
  entry_date : PDate
  start_time : Nat × Nat
  end_time : Nat × Nat
  daytype : String
deriving DecidableEq

/-- The row `views.ajax` saves: the form's fields with the hard-coded
user id 1 and break "00:15:00". -/
def viewsAjaxRow (store : List TRow) (form : VForm) (s e : PTime) : TRow :=
  { id := nextId store
    user_id := 1
    entry_date := form.entry_date
    start_time := s
    end_time := e
    breaks := ⟨0, 15⟩
    daytype := form.daytype }

/-- `views.ajax`: parse the times (a `ValueError` is uncaught here and
aborts the request) and reject only when start is strictly *after* end;
then save, reporting a duplicate-entry `IntegrityError` in the reply.
After a successful save the source regenerates the calendar for the
hard-coded user string `aaron.france@hp.com`; `gen_calendar` looks that
string up with `Tbluser.objects.get(id__exact=...)` against the integer
primary key, which raises uncaught (the surrounding `try` catches only
`IntegrityError`), so the request aborts after the entry is saved and the
success reply is never returned. -/
def views_ajax (store : List TRow) (form : VForm) :
    Except AbortErr VEnvelope × List TRow :=
  match mkTime form.start_time.1 form.start_time.2, mkTime form.end_time.1 form.end_time.2 with
  | some s, some e =>
    if timeGtB s e then
      (.ok ⟨false, "Start time after end time", none⟩, store)
    else
      match insertEntry store (viewsAjaxRow store form s e) with
      | .error .duplicate =>
          (.ok ⟨false, "There is a duplicate entry for this value", none⟩, store)
      | .ok s' => (.error .doesNotExist, s')
  | _, _ => (.error .valueError, store)

/-- The JSON reply of `mass_holidays`: initialised as
`{"success": False, "error": ""}`, both fields always present. -/
structure MHEnvelope where
  success : Bool
  error : String
deriving DecidableEq

/-- `calendar_utils.mass_holidays`, over the items of the posted holiday
data (day number, day type).  An "empty" or empty-string day type deletes
the day's entry (`DoesNotExist` is passed over); otherwise a zero-time
entry with that day type is saved, and on the duplicate-entry
`IntegrityError` the existing entry is fetched and only its `daytype`
column is updated.  Exceptions raised inside the duplicate handler
(`DoesNotExist`, `MultipleObjectsReturned`, the re-raised non-duplicate
error) are not caught by the sibling clause and abort the request.  The
pair carries the database state, which persists even when the request
aborts. -/
def mass_holidays (store : List TRow) (uid : Nat) (y m : Nat) :
    List (Nat × String) → Except AbortErr MHEnvelope × List TRow
  | [] => (.ok ⟨true, ""⟩, store)
  | (day, dt) :: rest =>
    let date : PDate := ⟨y, m, day⟩
    if dt = "empty" ∨ dt = "" then
      match getEntry store uid date with
      | .ok _ => mass_holidays (removeMatching store uid date) uid y m rest
      | .error .doesNotExist => mass_holidays store uid y m rest
      | .error .multipleObjects => (.error .multipleObjects, store)
    else
      match insertEntry store
          ⟨nextId store, uid, date, ⟨0, 0⟩, ⟨0, 0⟩, ⟨0, 0⟩, dt⟩ with
      | .ok s' => mass_holidays s' uid y m rest
      | .error .duplicate =>
        match getEntry store uid date with
        | .ok _ => mass_holidays (updateDaytype store uid date dt) uid y m rest
        | .error .doesNotExist => (.error .doesNotExist, store)
        | .error .multipleObjects => (.error .multipleObjects, store)

/-! ## The `ot_by_year` report cells -/

/-- The `"%.2f" % balance` formatting of a balance: optional sign, integer
part, a dot, two fraction digits (the balance, a Python float, is embedded
as a rational; `%.2f` rounds to two decimals). -/
def format_two_dec (q : ℚ) : String :=
  let scaled : Int := round (q * 100)
  let ip := scaled.natAbs / 100
  let fr := scaled.natAbs % 100
  String.mk ((if scaled < 0 then ['-'] else []) ++ Nat.toDigits 10 ip ++
    ['.'] ++ (if fr < 10 then ['0'] else []) ++ Nat.toDigits 10 fr)

/-- One per-user month cell of the `ot_by_year` report:
`"%.2f" % balance if balance != 0.0 else "-"`. -/
def ot_by_year_cell (balance : ℚ) : String :=
  if balance ≠ 0 then format_two_dec balance else "-"

/-! ## Helper lemmas -/

theorem mem_MONTH_MAP_keys (m : Int) :
    (m - 1) ∈ MONTH_MAP_keys ↔ (1 ≤ m ∧ m ≤ 12) := by
  simp [MONTH_MAP_keys]
  constructor
  · rintro ⟨k, hk, he⟩
    omega
  · intro h
    refine ⟨(m - 1).toNat, ?_, ?_⟩ <;> omega

theorem keyMatch_self (r : TRow) : keyMatch r.user_id r.entry_date r = true := by
  simp [keyMatch]

theorem keyMatch_update (u : Nat) (d : PDate) (dt : String) (r : TRow) :
    keyMatch u d { r with daytype := dt } = keyMatch u d r := rfl

theorem keyMatch_eq_keys {u : Nat} {d : PDate} {r : TRow} (h : keyMatch u d r = true) :
    r.user_id = u ∧ r.entry_date = d := by
  simpa [keyMatch] using h

theorem insertEntry_ok {store s' : List TRow} {r : TRow}
    (h : insertEntry store r = .ok s') :
    store.any (keyMatch r.user_id r.entry_date) = false ∧ s' = store ++ [r] := by
  unfold insertEntry at h
  split at h
  case isTrue hc => exact absurd h (by simp)
  case isFalse hc =>
    refine ⟨Bool.eq_false_iff.2 hc, ?_⟩
    injection h with h2
    exact h2.symm

theorem insertEntry_duplicate_of_lookup {store : List TRow} {u : Nat} {d : PDate} {e : TRow}
    (h : lookupEntry store u d = some e) (r : TRow) (hu : r.user_id = u) (hd : r.entry_date = d) :
    insertEntry store r = .error .duplicate := by
  have hany : store.any (keyMatch u d) = true :=
    List.any_eq_true.2 ⟨e, List.mem_of_find?_eq_some h, List.find?_some h⟩
  unfold insertEntry
  rw [hu, hd, if_pos hany]

theorem lookupEntry_append_self {store : List TRow} {r : TRow}
    (h : store.any (keyMatch r.user_id r.entry_date) = false) :
    lookupEntry (store ++ [r]) r.user_id r.entry_date = some r := by
  unfold lookupEntry
  rw [List.find?_append]
  have h1 : store.find? (keyMatch r.user_id r.entry_date) = none :=
    List.find?_eq_none.2 (by simpa using List.any_eq_false.1 h)
  rw [h1]
  simp [keyMatch_self]

theorem uniqueEntryKeys_nil : uniqueEntryKeys [] := by
  intro u d
  simp

theorem uniqueEntryKeys_singleton (r : TRow) : uniqueEntryKeys [r] := by
  intro u d
  simp [List.countP_cons]
  split <;> simp

theorem uniqueEntryKeys_append {store : List TRow} {r : TRow}
    (hu : uniqueEntryKeys store)
    (h : store.any (keyMatch r.user_id r.entry_date) = false) :
    uniqueEntryKeys (store ++ [r]) := by
  intro u d
  rw [List.countP_append]
  by_cases hk : keyMatch u d r = true
  · obtain ⟨h1, h2⟩ := keyMatch_eq_keys hk
    subst h1
    subst h2
    have hz : store.countP (keyMatch r.user_id r.entry_date) = 0 := by
      rw [List.countP_eq_zero]
      intro a ha
      exact List.any_eq_false.1 h a ha
    simp [hz, hk]
  · have hz : List.countP (keyMatch u d) [r] = 0 := by
      simp [List.countP_cons]
      exact Bool.eq_false_iff.2 hk ▸ (by simp [Bool.eq_false_iff.2 hk])
    rw [hz]
    simpa using hu u d

theorem getEntry_ok_of_unique {store : List TRow} {u : Nat} {d : PDate} {e : TRow}
    (hcount : store.countP (keyMatch u d) ≤ 1)
    (h : lookupEntry store u d = some e) :
    getEntry store u d = .ok e := by
  have hmem : e ∈ store.filter (keyMatch u d) :=
    List.mem_filter.2 ⟨List.mem_of_find?_eq_some h, List.find?_some h⟩
  have hlen : (store.filter (keyMatch u d)).length ≤ 1 := by
    rw [← List.countP_eq_length_filter]
    exact hcount
  have hfil : store.filter (keyMatch u d) = [e] := by
    rcases hf : store.filter (keyMatch u d) with _ | ⟨a, t⟩
    · rw [hf] at hmem
      simp at hmem
    · rw [hf] at hmem hlen
      have ht : t = [] := by
        cases t
        · rfl
        · simp at hlen
      subst ht
      simp at hmem
      rw [hmem]
  unfold getEntry
  rw [hfil]

theorem lookupEntry_updateDaytype_self {store : List TRow} {u : Nat} {d : PDate} {e : TRow}
    (h : lookupEntry store u d = some e) (dt : String) :
    lookupEntry (updateDaytype store u d dt) u d = some { e with daytype := dt } := by
  induction store with
  | nil => simp [lookupEntry] at h
  | cons a t ih =>
    by_cases hk : keyMatch u d a = true
    · rw [lookupEntry, List.find?_cons_of_pos _ hk] at h
      injection h with h
      subst h
      show List.find? (keyMatch u d) (updateDaytype (a :: t) u d dt) = _
      rw [show updateDaytype (a :: t) u d dt =
        { a with daytype := dt } :: updateDaytype t u d dt from by
          simp [updateDaytype, hk]]
      rw [List.find?_cons_of_pos _ (by rw [keyMatch_update]; exact hk)]
    · rw [lookupEntry, List.find?_cons_of_neg _ (by simp [hk])] at h
      show List.find? (keyMatch u d) (updateDaytype (a :: t) u d dt) = _
      rw [show updateDaytype (a :: t) u d dt = a :: updateDaytype t u d dt from by
        simp [updateDaytype, hk]]
      rw [List.find?_cons_of_neg _ (by simp [hk])]
      exact ih h

theorem lookupEntry_updateDaytype_other (store : List TRow) {u u' : Nat} {d d' : PDate}
    (dt : String) (hne : ¬(u' = u ∧ d' = d)) :
    lookupEntry (updateDaytype store u d dt) u' d' = lookupEntry store u' d' := by
  induction store with
  | nil => rfl
  | cons a t ih =>
    by_cases hk : keyMatch u d a = true
    · have hk' : keyMatch u' d' a = false := by
        obtain ⟨h1, h2⟩ := keyMatch_eq_keys hk
        rw [Bool.eq_false_iff]
        intro hc
        obtain ⟨h3, h4⟩ := keyMatch_eq_keys hc
        exact hne ⟨by omega, by rw [← h4, h2]⟩
      rw [show updateDaytype (a :: t) u d dt =
        { a with daytype := dt } :: updateDaytype t u d dt from by
          simp [updateDaytype, hk]]
      rw [lookupEntry, List.find?_cons_of_neg _ (by rw [keyMatch_update]; simp [hk'])]
      rw [lookupEntry, List.find?_cons_of_neg _ (by simp [hk'])]
      exact ih
    · rw [show updateDaytype (a :: t) u d dt = a :: updateDaytype t u d dt from by
        simp [updateDaytype, hk]]
      by_cases hk2 : keyMatch u' d' a = true
      · rw [lookupEntry, List.find?_cons_of_pos _ hk2]
        rw [lookupEntry, List.find?_cons_of_pos _ hk2]
      · rw [lookupEntry, List.find?_cons_of_neg _ (by simp [hk2])]
        rw [lookupEntry, List.find?_cons_of_neg _ (by simp [hk2])]
        exact ih

theorem countP_congr_on {p q : α → Bool} {l : List α} (h : ∀ a ∈ l, p a = q a) :
    l.countP p = l.countP q := by
  induction l with
  | nil => rfl
  | cons a t ih =>
    rw [List.countP_cons, List.countP_cons, h a (by simp), ih (fun b hb => h b (by simp [hb]))]

theorem getElem?_some_lt {l : List α} {i : Nat} {a : α} (h : l[i]? = some a) : i < l.length := by
  by_contra hc
  push_neg at hc
  rw [List.getElem?_eq_none_iff.mpr hc] at h
  exact absurd h (by simp)

theorem chunk7_flatten (l : List α) : (chunk7 l).flatten = l := by
  induction l using chunk7.induct with
  | case1 => simp [chunk7]
  | case2 a rest ih =>
    rw [chunk7]
    simp only [List.flatten_cons, ih]
    exact List.take_append_drop 7 (a :: rest)

theorem chunk7_mem_length {l : List α} (h : l.length % 7 = 0) :
    ∀ r ∈ chunk7 l, r.length = 7 := by
  induction l using chunk7.induct with
  | case1 => simp [chunk7]
  | case2 a rest ih =>
    intro r hr
    rw [chunk7] at hr
    rcases List.mem_cons.1 hr with h1 | h1
    · subst h1
      rw [List.length_take]
      have hl : (a :: rest).length % 7 = 0 := h
      simp at hl ⊢
      omega
    · refine ih ?_ r h1
      rw [List.length_drop]
      have hl : (a :: rest).length % 7 = 0 := h
      simp at hl ⊢
      omega

theorem chunk7_length {l : List α} (h : l.length % 7 = 0) :
    7 * (chunk7 l).length = l.length := by
  induction l using chunk7.induct with
  | case1 => simp [chunk7]
  | case2 a rest ih =>
    rw [chunk7]
    have hl : (a :: rest).length % 7 = 0 := h
    simp only [List.length_cons] at hl
    have h7 : ((a :: rest).drop 7).length % 7 = 0 := by
      rw [List.length_drop]
      simp
      omega
    rw [List.length_cons, Nat.mul_add, ih h7]
    rw [List.length_drop]
    simp
    omega

theorem chunk7_getElem {i : Nat} :
    ∀ {l r : List α}, (chunk7 l)[i]? = some r → r = (l.drop (7 * i)).take 7 := by
  induction i with
  | zero =>
    intro l r h
    cases l with
    | nil => simp [chunk7] at h
    | cons a t =>
      rw [chunk7] at h
      simp at h
      simp [← h]
  | succ i ih =>
    intro l r h
    cases l with
    | nil => simp [chunk7] at h
    | cons a t =>
      rw [chunk7] at h
      simp only [List.getElem?_cons_succ] at h
      have := ih h
      rw [this, List.drop_drop, Nat.mul_succ, Nat.add_comm 7 (7 * i)]

theorem weekday_lt_seven (y m d : Nat) : weekday y m d < 7 :=
  Nat.mod_lt _ (by norm_num)

theorem ordinalDate_ge_one (y m : Nat) : 1 ≤ ordinalDate y m 1 := by
  unfold ordinalDate
  exact Nat.le_add_left 1 _

theorem weekday_shift (y m d : Nat) (hd : 1 ≤ d) :
    weekday y m d = (weekday y m 1 + (d - 1)) % 7 := by
  have hA := ordinalDate_ge_one y m
  unfold weekday
  rw [show ordinalDate y m d = ordinalDate y m 1 + (d - 1) from by unfold ordinalDate; omega]
  omega

theorem monthcalendarFlat_eq (y m : Nat) :
    monthcalendarFlat y m =
      List.replicate (weekday y m 1) 0 ++
        (List.range (daysInMonth y m)).map (fun k => k + 1) ++
        List.replicate ((7 - (weekday y m 1 + daysInMonth y m) % 7) % 7) 0 := rfl

theorem monthcalendarFlat_length (y m : Nat) :
    (monthcalendarFlat y m).length =
      weekday y m 1 + daysInMonth y m +
        (7 - (weekday y m 1 + daysInMonth y m) % 7) % 7 := by
  rw [monthcalendarFlat_eq]
  simp
  omega

theorem monthcalendarFlat_length_mod (y m : Nat) :
    (monthcalendarFlat y m).length % 7 = 0 := by
  rw [monthcalendarFlat_length]
  omega

theorem monthcalendarFlat_getElem {y m k v : Nat}
    (h : (monthcalendarFlat y m)[k]? = some v) :
    (k < weekday y m 1 ∧ v = 0) ∨
    (weekday y m 1 ≤ k ∧ k < weekday y m 1 + daysInMonth y m ∧
      v = k - weekday y m 1 + 1) ∨
    (weekday y m 1 + daysInMonth y m ≤ k ∧ k < (monthcalendarFlat y m).length ∧
      v = 0) := by
  have hlen := monthcalendarFlat_length y m
  rw [monthcalendarFlat_eq] at h
  by_cases h1 : k < weekday y m 1
  · left
    refine ⟨h1, ?_⟩
    rw [List.getElem?_append_left (by simp; omega),
      List.getElem?_append_left (by simp; omega), List.getElem?_replicate] at h
    rw [if_pos h1] at h
    injection h with h
    omega
  · push_neg at h1
    by_cases h2 : k < weekday y m 1 + daysInMonth y m
    · right
      left
      refine ⟨h1, h2, ?_⟩
      rw [List.getElem?_append_left (by simp; omega),
        List.getElem?_append_right (by simp; omega)] at h
      rw [List.getElem?_map] at h
      rw [List.getElem?_range (by simp; omega)] at h
      simp at h
      omega
    · push_neg at h2
      right
      right
      refine ⟨h2, getElem?_some_lt (by rw [monthcalendarFlat_eq]; exact h), ?_⟩
      rw [List.getElem?_append_right (by simp; omega), List.getElem?_replicate] at h
      split at h
      · injection h with h
        omega
      · exact absurd h (by simp)

theorem monthcalendarFlat_mem {y m d : Nat} (hd : d ≠ 0) :
    d ∈ monthcalendarFlat y m ↔ (1 ≤ d ∧ d ≤ daysInMonth y m) := by
  rw [monthcalendarFlat_eq]
  simp [List.mem_replicate, hd]
  constructor
  · rintro ⟨a, ha, he⟩
    omega
  · intro h
    exact ⟨d - 1, by omega, by omega⟩

theorem monthcalendarFlat_count {y m d : Nat} (h1 : 1 ≤ d) (h2 : d ≤ daysInMonth y m) :
    (monthcalendarFlat y m).count d = 1 := by
  rw [monthcalendarFlat_eq, List.count_append, List.count_append]
  have hz1 : (List.replicate (weekday y m 1) 0).count d = 0 := by
    simp [List.count_replicate]
    omega
  have hz2 : (List.replicate ((7 - (weekday y m 1 + daysInMonth y m) % 7) % 7) 0).count d = 0 := by
    simp [List.count_replicate]
    omega
  have hm : ((List.range (daysInMonth y m)).map (fun k => k + 1)).count d = 1 := by
    have hinj : Function.Injective (fun k : Nat => k + 1) := fun a b hab => by simpa using hab
    rw [show d = (fun k : Nat => k + 1) (d - 1) from (by omega : d = d - 1 + 1)]
    rw [List.count_map_of_injective _ _ hinj]
    exact List.count_eq_one_of_mem (List.nodup_range _) (List.mem_range.2 (by omega))
  rw [hz1, hz2, hm]

theorem genCell_day {entries : Nat → Option TRow} (h0 : entries 0 = none) (v : Nat) :
    cellDay (genCell entries v) = if v = 0 then none else some v := by
  by_cases hv : v = 0
  · subst hv
    simp [genCell, h0, cellDay]
  · rcases he : entries v with _ | e <;> simp [genCell, he, cellDay, hv]

theorem genCell_eq_entry {entries : Nat → Option TRow} {v d : Nat} {e : TRow} :
    genCell entries v = CalCell.entry d e ↔ (v = d ∧ entries v = some e) := by
  constructor
  · intro h
    unfold genCell at h
    rcases he : entries v with _ | e'
    · rw [he] at h
      by_cases hv : v = 0 <;> simp [hv] at h
    · rw [he] at h
      simp at h
      exact ⟨h.1, by rw [h.2]⟩
  · rintro ⟨h1, h2⟩
    subst h1
    unfold genCell
    rw [h2]

theorem genCell_eq_emptyDay {entries : Nat → Option TRow} {v d : Nat} :
    genCell entries v = CalCell.emptyDay d ↔ (v = d ∧ v ≠ 0 ∧ entries v = none) := by
  constructor
  · intro h
    unfold genCell at h
    rcases he : entries v with _ | e'
    · rw [he] at h
      by_cases hv : v = 0
      · simp [hv] at h
      · simp [hv] at h
        exact ⟨h, hv, rfl⟩
    · rw [he] at h
      exact absurd h (by simp)
  · rintro ⟨h1, h2, h3⟩
    subst h1
    unfold genCell
    rw [h3, if_neg h2]

theorem genCell_eq_blank {entries : Nat → Option TRow} {v : Nat}
    (h : genCell entries v = CalCell.blank) : v = 0 := by
  unfold genCell at h
  rcases he : entries v with _ | e'
  · rw [he] at h
    by_cases hv : v = 0
    · exact hv
    · simp [hv] at h
  · rw [he] at h
    exact absurd h (by simp)

theorem grid_flatten (entries : Nat → Option TRow) (y M : Nat) :
    ((monthcalendar y M).map (List.map (genCell entries))).flatten =
      (monthcalendarFlat y M).map (genCell entries) := by
  rw [monthcalendar]
  calc ((chunk7 (monthcalendarFlat y M)).map (List.map (genCell entries))).flatten
      = (chunk7 (monthcalendarFlat y M)).flatten.map (genCell entries) :=
        (List.map_flatten _ _).symm
    _ = (monthcalendarFlat y M).map (genCell entries) := by rw [chunk7_flatten]

theorem grid_cell_at {entries : Nat → Option TRow} {y M i j : Nat}
    {row : List CalCell} {c : CalCell}
    (hi : ((monthcalendar y M).map (List.map (genCell entries)))[i]? = some row)
    (hj : row[j]? = some c) :
    j < 7 ∧ ∃ v, (monthcalendarFlat y M)[7 * i + j]? = some v ∧ c = genCell entries v := by
  rw [List.getElem?_map] at hi
  obtain ⟨r, hr, hrow⟩ := Option.map_eq_some'.1 hi
  subst hrow
  rw [List.getElem?_map] at hj
  obtain ⟨v, hv, hc⟩ := Option.map_eq_some'.1 hj
  have hr7 : r = ((monthcalendarFlat y M).drop (7 * i)).take 7 := chunk7_getElem hr
  have hj7 : j < 7 := by
    have := getElem?_some_lt hv
    rw [hr7, List.length_take] at this
    omega
  refine ⟨hj7, v, ?_, hc.symm⟩
  rw [hr7] at hv
  rw [show (((monthcalendarFlat y M).drop (7 * i)).take 7)[j]? =
    ((monthcalendarFlat y M).drop (7 * i))[j]? from by simp [List.getElem?_take, hj7]] at hv
  rw [List.getElem?_drop] at hv
  exact hv

theorem format_two_dec_ne_dash (q : ℚ) : format_two_dec q ≠ "-" := by
  unfold format_two_dec
  intro h
  have hdata : ((if round (q * 100) < 0 then ['-'] else []) ++
      Nat.toDigits 10 ((round (q * 100)).natAbs / 100) ++
      ['.'] ++ (if (round (q * 100)).natAbs % 100 < 10 then ['0'] else []) ++
      Nat.toDigits 10 ((round (q * 100)).natAbs % 100)) = ['-'] :=
    congrArg String.data h
  have hmem : ('.' : Char) ∈ (['-'] : List Char) := by
    rw [← hdata]
    simp
  simp at hmem

/-! ## The claims -/

/-- C2: the worked duration of an entry is end − start − breaks; the entry
is overtime iff that strictly exceeds the standard shift length, the
reported time-difference is worked minus standard (positive, negative or
zero), overtime iff the time-difference is positive; a 09:00–17:00 day
with a 15-minute break against a 07:45 shift has time-difference exactly
zero and is not overtime, while 09:00–18:01 has a positive time-difference
and is overtime. -/
theorem overtime_iff_worked_exceeds_shift :
    (∀ s e b sh : PTime,
      (is_overtime s e b sh = true ↔ workedMinutes s e b > (sh.toMinutes : Int)) ∧
      time_difference s e b sh = workedMinutes s e b - (sh.toMinutes : Int) ∧
      (is_overtime s e b sh = true ↔ 0 < time_difference s e b sh)) ∧
    time_difference ⟨9, 0⟩ ⟨17, 0⟩ ⟨0, 15⟩ ⟨7, 45⟩ = 0 ∧
    is_overtime ⟨9, 0⟩ ⟨17, 0⟩ ⟨0, 15⟩ ⟨7, 45⟩ = false ∧
    0 < time_difference ⟨9, 0⟩ ⟨18, 1⟩ ⟨0, 15⟩ ⟨7, 45⟩ ∧
    is_overtime ⟨9, 0⟩ ⟨18, 1⟩ ⟨0, 15⟩ ⟨7, 45⟩ = true := by
  refine ⟨fun s e b sh => ⟨?_, rfl, ?_⟩, by decide, by decide, by decide, by decide⟩
  · simp [is_overtime]
  · simp [is_overtime, time_difference]
    try omega

/-- C3: for a user with stored holiday balance 20 whose 2012 entries are
exactly one HOLIS, one PUWRK and one RETRN entry (on 2012-01-01/02/03),
the computed balance for 2012 is 20: the signed contributions of this
day-type mix sum to zero. -/
theorem holiday_balance_mix_is_twenty :
    ∀ (uid i1 i2 i3 : Nat) (t : PTime),
      get_holiday_balance 20 uid
        [⟨i1, uid, ⟨2012, 1, 1⟩, t, t, t, "HOLIS"⟩,
         ⟨i2, uid, ⟨2012, 1, 2⟩, t, t, t, "PUWRK"⟩,
         ⟨i3, uid, ⟨2012, 1, 3⟩, t, t, t, "RETRN"⟩] 2012 = 20 ∧
      holiday_contribution "HOLIS" + holiday_contribution "PUWRK" +
        holiday_contribution "RETRN" = 0 := by
  intro uid i1 i2 i3 t
  constructor
  · simp [get_holiday_balance, holiday_contribution]
  · decide

/-- C4: for well-formed time strings, `validate_time` accepts iff the
start time strictly precedes the end time; it rejects equal times and
rejects a start after the end. -/
theorem validate_time_iff_strictly_before (sh sm eh em : Nat)
    (hsh : sh < 24) (hsm : sm < 60) (heh : eh < 24) (hem : em < 60) :
    (validate_time (sh, sm) (eh, em) = some true ↔ 60 * sh + sm < 60 * eh + em) ∧
    validate_time (sh, sm) (sh, sm) = some false ∧
    (60 * eh + em ≤ 60 * sh + sm → validate_time (sh, sm) (eh, em) = some false) := by
  refine ⟨?_, ?_, ?_⟩
  · simp [validate_time, mkTime, timeLtB, hsh, hsm, heh, hem]
    omega
  · simp [validate_time, mkTime, timeLtB, hsh, hsm]
  · intro hle
    simp [validate_time, mkTime, timeLtB, hsh, hsm, heh, hem]
    omega

/-- Witness for C4 at ("09:00", "17:00"): 09:00 strictly precedes 17:00,
so validation accepts, and it rejects the reversed and the equal pair. -/
theorem validate_time_iff_strictly_before_witness :
    ((9 : Nat) < 24 ∧ (0 : Nat) < 60 ∧ (17 : Nat) < 24 ∧ (0 : Nat) < 60) ∧
    ((validate_time (9, 0) (17, 0) = some true ↔ 60 * 9 + 0 < 60 * 17 + 0) ∧
      validate_time (9, 0) (9, 0) = some false ∧
      (60 * 17 + 0 ≤ 60 * 9 + 0 → validate_time (9, 0) (17, 0) = some false)) :=
  ⟨by decide,
    validate_time_iff_strictly_before 9 0 17 0 (by decide) (by decide) (by decide) (by decide)⟩

/-- C6: `gen_calendar` raises `Http404` exactly for month arguments
outside 1..12, whatever the year, the entry set (and hence day and user)
are. -/
theorem gen_calendar_http404_iff_bad_month :
    ∀ (year : Nat) (month : Int) (entries : Nat → Option TRow),
      gen_calendar year month entries = .error .http404 ↔ (month < 1 ∨ 12 < month) := by
  intro year month entries
  have hiff := mem_MONTH_MAP_keys month
  unfold gen_calendar
  rcases Decidable.em ((month - 1) ∈ MONTH_MAP_keys) with h | h
  · rw [if_pos h]
    obtain ⟨h1, h2⟩ := hiff.1 h
    constructor
    · intro hc
      exact absurd hc (by simp)
    · intro hc
      omega
  · rw [if_neg h]
    constructor
    · intro _
      by_contra hc
      push_neg at hc
      exact h (hiff.2 ⟨by omega, by omega⟩)
    · intro _
      rfl

/-- C7: for a valid month, `gen_calendar` produces a grid of complete
weeks: every row has exactly seven day cells; a cell showing day `d` sits
in the column equal to `d`'s weekday with Monday as column 0; every
in-month day appears in exactly one cell, annotated with the user's entry
for that date when one exists and rendered as the empty clickable cell
otherwise; blank placeholder cells (empty class, non-breaking-space
content, no day and no entry annotation) occur only in the first or last
week row, standing for the adjacent months' days. -/
theorem gen_calendar_weeks_grid
    (y : Nat) (m : Int) (entries : Nat → Option TRow)
    (hm1 : 1 ≤ m) (hm2 : m ≤ 12) (h0 : entries 0 = none) :
    ∃ grid, gen_calendar y m entries = .ok grid ∧
      (∀ row ∈ grid, row.length = 7) ∧
      (∀ (i j : Nat) (row : List CalCell) (c : CalCell) (d : Nat),
        grid[i]? = some row → row[j]? = some c →
        cellDay c = some d → weekday y m.toNat d = j) ∧
      (∀ d, 1 ≤ d → d ≤ daysInMonth y m.toNat →
        grid.flatten.countP (fun c => cellDay c == some d) = 1) ∧
      (∀ d e, CalCell.entry d e ∈ grid.flatten ↔
        (1 ≤ d ∧ d ≤ daysInMonth y m.toNat ∧ entries d = some e)) ∧
      (∀ d, CalCell.emptyDay d ∈ grid.flatten ↔
        (1 ≤ d ∧ d ≤ daysInMonth y m.toNat ∧ entries d = none)) ∧
      (∀ (i : Nat) (row : List CalCell), grid[i]? = some row → CalCell.blank ∈ row →
        (i = 0 ∨ i = grid.length - 1)) ∧
      cellClass CalCell.blank = "empty" ∧ cellContent CalCell.blank = "&nbsp" ∧
      cellDay CalCell.blank = none := by
  have hmem : (m - 1) ∈ MONTH_MAP_keys := (mem_MONTH_MAP_keys m).2 ⟨hm1, hm2⟩
  refine ⟨(monthcalendar y m.toNat).map (List.map (genCell entries)),
    ?_, ?_, ?_, ?_, ?_, ?_, ?_, rfl, rfl, rfl⟩
  · unfold gen_calendar
    rw [if_pos hmem]
  · intro row hr
    obtain ⟨r, hrm, hrow⟩ := List.mem_map.1 hr
    subst hrow
    rw [List.length_map]
    exact chunk7_mem_length (monthcalendarFlat_length_mod y m.toNat) r hrm
  · intro i j row c d hi hj hd
    obtain ⟨hj7, v, hv, hc⟩ := grid_cell_at hi hj
    subst hc
    rw [genCell_day h0] at hd
    by_cases hv0 : v = 0
    · rw [if_pos hv0] at hd
      exact absurd hd (by simp)
    · rw [if_neg hv0] at hd
      injection hd with hd
      subst hd
      rcases monthcalendarFlat_getElem hv with ⟨h1, h2⟩ | ⟨h1, h2, h3⟩ | ⟨h1, h2, h3⟩
      · exact absurd h2 hv0
      · rw [weekday_shift y m.toNat v (by omega)]
        omega
      · exact absurd h3 hv0
  · intro d h1 h2
    rw [grid_flatten, List.countP_map]
    have hcong : (monthcalendarFlat y m.toNat).countP
        ((fun c => cellDay c == some d) ∘ genCell entries) =
        (monthcalendarFlat y m.toNat).countP (fun v => v == d) := by
      refine countP_congr_on ?_
      intro v hv
      show (cellDay (genCell entries v) == some d) = (v == d)
      rw [genCell_day h0]
      by_cases hv0 : v = 0
      · rw [if_pos hv0, hv0]
        have : (0 == d) = false := by
          simp
          omega
        rw [this]
        rfl
      · rw [if_neg hv0]
        by_cases hvd : v = d <;> simp [hvd]
    rw [hcong]
    rw [show (monthcalendarFlat y m.toNat).countP (fun v => v == d) =
      (monthcalendarFlat y m.toNat).count d from rfl]
    exact monthcalendarFlat_count h1 h2
  · intro d e
    rw [grid_flatten]
    constructor
    · intro h
      obtain ⟨v, hvF, hgen⟩ := List.mem_map.1 h
      obtain ⟨h1, h2⟩ := genCell_eq_entry.1 hgen
      subst h1
      have hd0 : v ≠ 0 := by
        intro hc
        rw [hc, h0] at h2
        exact absurd h2 (by simp)
      have hb := (monthcalendarFlat_mem hd0).1 hvF
      exact ⟨hb.1, hb.2, h2⟩
    · rintro ⟨h1, h2, h3⟩
      refine List.mem_map.2 ⟨d, ?_, ?_⟩
      · exact (monthcalendarFlat_mem (by omega)).2 ⟨h1, h2⟩
      · exact genCell_eq_entry.2 ⟨rfl, h3⟩
  · intro d
    rw [grid_flatten]
    constructor
    · intro h
      obtain ⟨v, hvF, hgen⟩ := List.mem_map.1 h
      obtain ⟨h1, hne, hnone⟩ := genCell_eq_emptyDay.1 hgen
      subst h1
      have hb := (monthcalendarFlat_mem hne).1 hvF
      exact ⟨hb.1, hb.2, hnone⟩
    · rintro ⟨h1, h2, h3⟩
      refine List.mem_map.2 ⟨d, ?_, ?_⟩
      · exact (monthcalendarFlat_mem (by omega)).2 ⟨h1, h2⟩
      · exact genCell_eq_emptyDay.2 ⟨rfl, by omega, h3⟩
  · intro i row hi hb
    obtain ⟨j, hj⟩ := List.mem_iff_getElem?.1 hb
    obtain ⟨hj7, v, hv, hc⟩ := grid_cell_at hi hj
    have hv0 : v = 0 := genCell_eq_blank hc.symm
    subst hv0
    have hf7 := weekday_lt_seven y m.toNat 1
    rcases monthcalendarFlat_getElem hv with ⟨h1, _⟩ | ⟨h1, h2, h3⟩ | ⟨h1, h2, _⟩
    · left
      omega
    · omega
    · right
      have hiL := getElem?_some_lt hi
      rw [List.length_map] at hiL
      have hL := chunk7_length (monthcalendarFlat_length_mod y m.toNat)
      have hpe : (7 - (weekday y m.toNat 1 + daysInMonth y m.toNat) % 7) % 7 < 7 :=
        Nat.mod_lt _ (by norm_num)
      have hflen := monthcalendarFlat_length y m.toNat
      rw [List.length_map, monthcalendar]
      omega

/-- Witness for C7 at January 2012 with no entries: the grid exists with
all the stated week-structure properties. -/
theorem gen_calendar_weeks_grid_witness :
    ((1 : Int) ≤ 1 ∧ (1 : Int) ≤ 12 ∧ (fun _ : Nat => (none : Option TRow)) 0 = none) ∧
    (∃ grid, gen_calendar 2012 1 (fun _ => none) = .ok grid ∧
      (∀ row ∈ grid, row.length = 7) ∧
      (∀ (i j : Nat) (row : List CalCell) (c : CalCell) (d : Nat),
        grid[i]? = some row → row[j]? = some c →
        cellDay c = some d → weekday 2012 (1 : Int).toNat d = j) ∧
      (∀ d, 1 ≤ d → d ≤ daysInMonth 2012 (1 : Int).toNat →
        grid.flatten.countP (fun c => cellDay c == some d) = 1) ∧
      (∀ d e, CalCell.entry d e ∈ grid.flatten ↔
        (1 ≤ d ∧ d ≤ daysInMonth 2012 (1 : Int).toNat ∧
          (fun _ : Nat => (none : Option TRow)) d = some e)) ∧
      (∀ d, CalCell.emptyDay d ∈ grid.flatten ↔
        (1 ≤ d ∧ d ≤ daysInMonth 2012 (1 : Int).toNat ∧
          (fun _ : Nat => (none : Option TRow)) d = none)) ∧
      (∀ (i : Nat) (row : List CalCell), grid[i]? = some row → CalCell.blank ∈ row →
        (i = 0 ∨ i = grid.length - 1)) ∧
      cellClass CalCell.blank = "empty" ∧ cellContent CalCell.blank = "&nbsp" ∧
      cellDay CalCell.blank = none) :=
  ⟨⟨by decide, by decide, rfl⟩,
    gen_calendar_weeks_grid 2012 1 (fun _ => none) (by decide) (by decide) rfl⟩

/-- C8: a per-user month cell of the `ot_by_year` report renders as the
placeholder "-" exactly when the computed balance is zero, and as the
"%.2f"-formatted number otherwise. -/
theorem ot_by_year_cell_dash_iff_zero :
    ∀ balance : ℚ,
      (ot_by_year_cell balance = "-" ↔ balance = 0) ∧
      (balance ≠ 0 → ot_by_year_cell balance = format_two_dec balance) := by
  intro b
  unfold ot_by_year_cell
  rcases Decidable.em (b = 0) with h | h
  · simp [h]
  · simp [h, format_two_dec_ne_dash b]

/-- Witness for C8 at balance 1: a non-zero balance renders as the
formatted number, not the dash. -/
theorem ot_by_year_cell_dash_iff_zero_witness :
    ((1 : ℚ) ≠ 0) ∧ ot_by_year_cell 1 = format_two_dec 1 :=
  ⟨by norm_num, (ot_by_year_cell_dash_iff_zero 1).2 (by norm_num)⟩

/-- C1: under the (user, date) uniqueness constraint, a second insert for
the same (user, date) fails with the duplicate-entry error, the stored
entry keeps the first insert's fields (no silent overwrite), and the
at-most-one-entry-per-key invariant is preserved. -/
theorem duplicate_insert_errors_and_keeps_first
    (store : List TRow) (r1 r2 : TRow) (s1 : List TRow)
    (hu : uniqueEntryKeys store)
    (hku : r2.user_id = r1.user_id) (hkd : r2.entry_date = r1.entry_date)
    (h1 : insertEntry store r1 = .ok s1) :
    uniqueEntryKeys s1 ∧
    lookupEntry s1 r1.user_id r1.entry_date = some r1 ∧
    insertEntry s1 r2 = .error .duplicate ∧
    lookupEntry s1 r2.user_id r2.entry_date = some r1 := by
  obtain ⟨hany, hs1⟩ := insertEntry_ok h1
  subst hs1
  have hlook := lookupEntry_append_self hany
  refine ⟨uniqueEntryKeys_append hu hany, hlook, ?_, ?_⟩
  · exact insertEntry_duplicate_of_lookup hlook r2 hku hkd
  · rw [hku, hkd]
    exact hlook

/-- Witness for C1: a concrete 2012-01-05 entry for user 7 is inserted
into an empty table; a second insert for the same (user, date) errors and
the stored fields stay those of the first entry. -/
theorem duplicate_insert_errors_and_keeps_first_witness :
    (uniqueEntryKeys ([] : List TRow) ∧
      (⟨2, 7, ⟨2012, 1, 5⟩, ⟨8, 0⟩, ⟨16, 0⟩, ⟨0, 30⟩, "HOLIS"⟩ : TRow).user_id =
        (⟨1, 7, ⟨2012, 1, 5⟩, ⟨9, 0⟩, ⟨17, 0⟩, ⟨0, 15⟩, "WKDAY"⟩ : TRow).user_id ∧
      (⟨2, 7, ⟨2012, 1, 5⟩, ⟨8, 0⟩, ⟨16, 0⟩, ⟨0, 30⟩, "HOLIS"⟩ : TRow).entry_date =
        (⟨1, 7, ⟨2012, 1, 5⟩, ⟨9, 0⟩, ⟨17, 0⟩, ⟨0, 15⟩, "WKDAY"⟩ : TRow).entry_date ∧
      insertEntry [] ⟨1, 7, ⟨2012, 1, 5⟩, ⟨9, 0⟩, ⟨17, 0⟩, ⟨0, 15⟩, "WKDAY"⟩ =
        Except.ok [⟨1, 7, ⟨2012, 1, 5⟩, ⟨9, 0⟩, ⟨17, 0⟩, ⟨0, 15⟩, "WKDAY"⟩]) ∧
    (uniqueEntryKeys [⟨1, 7, ⟨2012, 1, 5⟩, ⟨9, 0⟩, ⟨17, 0⟩, ⟨0, 15⟩, "WKDAY"⟩] ∧
      lookupEntry [⟨1, 7, ⟨2012, 1, 5⟩, ⟨9, 0⟩, ⟨17, 0⟩, ⟨0, 15⟩, "WKDAY"⟩] 7 ⟨2012, 1, 5⟩ =
        some ⟨1, 7, ⟨2012, 1, 5⟩, ⟨9, 0⟩, ⟨17, 0⟩, ⟨0, 15⟩, "WKDAY"⟩ ∧
      insertEntry [⟨1, 7, ⟨2012, 1, 5⟩, ⟨9, 0⟩, ⟨17, 0⟩, ⟨0, 15⟩, "WKDAY"⟩]
          ⟨2, 7, ⟨2012, 1, 5⟩, ⟨8, 0⟩, ⟨16, 0⟩, ⟨0, 30⟩, "HOLIS"⟩ = .error .duplicate ∧
      lookupEntry [⟨1, 7, ⟨2012, 1, 5⟩, ⟨9, 0⟩, ⟨17, 0⟩, ⟨0, 15⟩, "WKDAY"⟩] 7 ⟨2012, 1, 5⟩ =
        some ⟨1, 7, ⟨2012, 1, 5⟩, ⟨9, 0⟩, ⟨17, 0⟩, ⟨0, 15⟩, "WKDAY"⟩) :=
  ⟨⟨uniqueEntryKeys_nil, rfl, rfl, rfl⟩,
    duplicate_insert_errors_and_keeps_first []
      ⟨1, 7, ⟨2012, 1, 5⟩, ⟨9, 0⟩, ⟨17, 0⟩, ⟨0, 15⟩, "WKDAY"⟩
      ⟨2, 7, ⟨2012, 1, 5⟩, ⟨8, 0⟩, ⟨16, 0⟩, ⟨0, 30⟩, "HOLIS"⟩
      [⟨1, 7, ⟨2012, 1, 5⟩, ⟨9, 0⟩, ⟨17, 0⟩, ⟨0, 15⟩, "WKDAY"⟩]
      uniqueEntryKeys_nil rfl rfl rfl⟩

/-- C10: when `mass_holidays` hits the duplicate-entry conflict for a day
with a non-empty day type, only the `daytype` field of the existing entry
for that (user, date) changes — its start time, end time, breaks and date
stay as they were, every other (user, date) is untouched — and the
operation still reports success. -/
theorem mass_holidays_duplicate_updates_only_daytype
    (store : List TRow) (uid y m day : Nat) (dt : String) (e : TRow)
    (hu : uniqueEntryKeys store)
    (hl : lookupEntry store uid ⟨y, m, day⟩ = some e)
    (hdt1 : dt ≠ "empty") (hdt2 : dt ≠ "") :
    ∃ s', mass_holidays store uid y m [(day, dt)] = (.ok ⟨true, ""⟩, s') ∧
      lookupEntry s' uid ⟨y, m, day⟩ =
        some ⟨e.id, e.user_id, e.entry_date, e.start_time, e.end_time, e.breaks, dt⟩ ∧
      (∀ u' d', ¬(u' = uid ∧ d' = (⟨y, m, day⟩ : PDate)) →
        lookupEntry s' u' d' = lookupEntry store u' d') := by
  have hdup := insertEntry_duplicate_of_lookup hl
    ⟨nextId store, uid, ⟨y, m, day⟩, ⟨0, 0⟩, ⟨0, 0⟩, ⟨0, 0⟩, dt⟩ rfl rfl
  have hget := getEntry_ok_of_unique (hu uid ⟨y, m, day⟩) hl
  refine ⟨updateDaytype store uid ⟨y, m, day⟩ dt, ?_, ?_, ?_⟩
  · show mass_holidays store uid y m ((day, dt) :: []) = _
    simp only [mass_holidays, hdup, hget]
    rw [if_neg (by simp [hdt1, hdt2])]
  · exact lookupEntry_updateDaytype_self hl dt
  · exact fun u' d' hne => lookupEntry_updateDaytype_other store dt hne

/-- Witness for C10: a table holding a 2012-01-04 WKDAY entry for user 3;
submitting HOLIS for that day through `mass_holidays` reports success and
only the day type of the stored entry changes. -/
theorem mass_holidays_duplicate_updates_only_daytype_witness :
    (uniqueEntryKeys [⟨1, 3, ⟨2012, 1, 4⟩, ⟨9, 0⟩, ⟨17, 0⟩, ⟨0, 15⟩, "WKDAY"⟩] ∧
      lookupEntry [⟨1, 3, ⟨2012, 1, 4⟩, ⟨9, 0⟩, ⟨17, 0⟩, ⟨0, 15⟩, "WKDAY"⟩] 3 ⟨2012, 1, 4⟩ =
        some ⟨1, 3, ⟨2012, 1, 4⟩, ⟨9, 0⟩, ⟨17, 0⟩, ⟨0, 15⟩, "WKDAY"⟩ ∧
      ("HOLIS" : String) ≠ "empty" ∧ ("HOLIS" : String) ≠ "") ∧
    (∃ s', mass_holidays [⟨1, 3, ⟨2012, 1, 4⟩, ⟨9, 0⟩, ⟨17, 0⟩, ⟨0, 15⟩, "WKDAY"⟩]
          3 2012 1 [(4, "HOLIS")] = (.ok ⟨true, ""⟩, s') ∧
      lookupEntry s' 3 ⟨2012, 1, 4⟩ = some ⟨1, 3, ⟨2012, 1, 4⟩, ⟨9, 0⟩, ⟨17, 0⟩, ⟨0, 15⟩, "HOLIS"⟩ ∧
      (∀ u' d', ¬(u' = 3 ∧ d' = (⟨2012, 1, 4⟩ : PDate)) →
        lookupEntry s' u' d' =
          lookupEntry [⟨1, 3, ⟨2012, 1, 4⟩, ⟨9, 0⟩, ⟨17, 0⟩, ⟨0, 15⟩, "WKDAY"⟩] u' d')) :=
  ⟨⟨uniqueEntryKeys_singleton _, rfl, by decide, by decide⟩,
    mass_holidays_duplicate_updates_only_daytype
      [⟨1, 3, ⟨2012, 1, 4⟩, ⟨9, 0⟩, ⟨17, 0⟩, ⟨0, 15⟩, "WKDAY"⟩] 3 2012 1 4 "HOLIS"
      ⟨1, 3, ⟨2012, 1, 4⟩, ⟨9, 0⟩, ⟨17, 0⟩, ⟨0, 15⟩, "WKDAY"⟩
      (uniqueEntryKeys_singleton _) rfl (by decide) (by decide)⟩

/-- C5 counterexample: the concrete request (2012-01-01, 09:00–09:00,
WKDAY) fails time validation; `ajax_add_entry` returns normally with a
non-empty `error`, but the reply's `success` field is absent (`none`), not
`false` — the empty dict it builds only ever receives the `error` key on
this path. -/
theorem ajax_add_entry_error_reply_success_absent :
    (ajax_add_entry [] ⟨⟨2012, 1, 1⟩, (9, 0), (9, 0), "WKDAY", ⟨0, 15⟩, 1⟩).1 =
      Except.ok ⟨none, some "Start time after end time", none⟩ ∧
    (Envelope.mk none (some "Start time after end time") none).success ≠ some false := by
  constructor
  · rfl
  · simp

/-- C5 (amended): an AJAX add/change request that fails time validation or
hits the duplicate-entry conflict returns normally (no abort) with a
non-empty `error` message and the database unchanged; the `success` field
is `false` in `views.ajax`, whose reply dict is initialised with it, and
absent — never `true` — in `ajax_add_entry`/`ajax_change_entry`, whose
reply dict starts empty. -/
theorem ajax_error_replies_report_error_and_no_success :
    (∀ (store : List TRow) (form : AddForm),
      (validate_time form.start_time form.end_time = none ∨
        validate_time form.start_time form.end_time = some false ∨
        insertEntry store (addFormRow store form) = .error .duplicate) →
      ∃ msg, (ajax_add_entry store form).1 = Except.ok ⟨none, some msg, none⟩ ∧
        msg ≠ "" ∧ (ajax_add_entry store form).2 = store) ∧
    (∀ (store : List TRow) (form : ChangeForm) (pk : Nat),
      (validate_time form.start_time form.end_time = none ∨
        validate_time form.start_time form.end_time = some false ∨
        (form.hidden_id = some pk ∧
          saveByPk store (changeFormRow pk form) = .error .duplicate)) →
      ∃ msg, (ajax_change_entry store form).1 = Except.ok ⟨none, some msg, none⟩ ∧
        msg ≠ "" ∧ (ajax_change_entry store form).2 = store) ∧
    (∀ (store : List TRow) (form : VForm) (s e : PTime),
      mkTime form.start_time.1 form.start_time.2 = some s →
      mkTime form.end_time.1 form.end_time.2 = some e →
      (timeGtB s e = true ∨
        insertEntry store (viewsAjaxRow store form s e) = .error .duplicate) →
      ∃ msg, (views_ajax store form).1 = Except.ok ⟨false, msg, none⟩ ∧
        msg ≠ "" ∧ (views_ajax store form).2 = store) := by
  refine ⟨?_, ?_, ?_⟩
  · intro store form h
    rcases hv : validate_time form.start_time form.end_time with _ | b
    · refine ⟨"Date Error", ?_⟩
      have he : ajax_add_entry store form =
          (Except.ok ⟨none, some "Date Error", none⟩, store) := by
        unfold ajax_add_entry
        rw [hv]
      rw [he]
      exact ⟨rfl, by simp, rfl⟩
    · cases b
      case false =>
        refine ⟨"Start time after end time", ?_⟩
        have he : ajax_add_entry store form =
            (Except.ok ⟨none, some "Start time after end time", none⟩, store) := by
          unfold ajax_add_entry
          rw [hv]
        rw [he]
        exact ⟨rfl, by simp, rfl⟩
      case true =>
        have hdup : insertEntry store (addFormRow store form) = .error .duplicate := by
          rcases h with h | h | h
          · rw [hv] at h
            exact absurd h (by simp)
          · rw [hv] at h
            exact absurd h (by simp)
          · exact h
        refine ⟨"There is a duplicate entry for this value", ?_⟩
        have he : ajax_add_entry store form =
            (Except.ok ⟨none, some "There is a duplicate entry for this value", none⟩, store) := by
          unfold ajax_add_entry
          rw [hv]
          dsimp only
          rw [hdup]
        rw [he]
        exact ⟨rfl, by simp, rfl⟩
  · intro store form pk h
    rcases hv : validate_time form.start_time form.end_time with _ | b
    · refine ⟨"Date Error", ?_⟩
      have he : ajax_change_entry store form =
          (Except.ok ⟨none, some "Date Error", none⟩, store) := by
        unfold ajax_change_entry
        rw [hv]
      rw [he]
      exact ⟨rfl, by simp, rfl⟩
    · cases b
      case false =>
        refine ⟨"Start time after end time", ?_⟩
        have he : ajax_change_entry store form =
            (Except.ok ⟨none, some "Start time after end time", none⟩, store) := by
          unfold ajax_change_entry
          rw [hv]
        rw [he]
        exact ⟨rfl, by simp, rfl⟩
      case true =>
        have hdup : form.hidden_id = some pk ∧
            saveByPk store (changeFormRow pk form) = .error .duplicate := by
          rcases h with h | h | h
          · rw [hv] at h
            exact absurd h (by simp)
          · rw [hv] at h
            exact absurd h (by simp)
          · exact h
        refine ⟨"Duplicate entry", ?_⟩
        have he : ajax_change_entry store form =
            (Except.ok ⟨none, some "Duplicate entry", none⟩, store) := by
          unfold ajax_change_entry
          rw [hv]
          dsimp only
          rw [hdup.1]
          dsimp only
          rw [hdup.2]
        rw [he]
        exact ⟨rfl, by simp, rfl⟩
  · intro store form s e hs he h
    rcases hgt : timeGtB s e with _ | _
    · have hdup : insertEntry store (viewsAjaxRow store form s e) = .error .duplicate := by
        rcases h with h | h
        · rw [hgt] at h
          exact absurd h (by simp)
        · exact h
      refine ⟨"There is a duplicate entry for this value", ?_⟩
      have hres : views_ajax store form =
          (Except.ok ⟨false, "There is a duplicate entry for this value", none⟩, store) := by
        simp only [views_ajax, hs, he, hgt, Bool.false_eq_true, if_false, hdup]
      rw [hres]
      exact ⟨rfl, by simp, rfl⟩
    · refine ⟨"Start time after end time", ?_⟩
      have hres : views_ajax store form =
          (Except.ok ⟨false, "Start time after end time", none⟩, store) := by
        simp only [views_ajax, hs, he, hgt, if_true]
      rw [hres]
      exact ⟨rfl, by simp, rfl⟩

/-- Witness for the amended C5: the equal-times request against an empty
table fails validation in `ajax_add_entry`, which replies normally with a
non-empty error and no success field. -/
theorem ajax_error_replies_report_error_and_no_success_witness :
    (validate_time (⟨⟨2012, 1, 1⟩, (9, 0), (9, 0), "WKDAY", ⟨0, 15⟩, 1⟩ : AddForm).start_time
        (⟨⟨2012, 1, 1⟩, (9, 0), (9, 0), "WKDAY", ⟨0, 15⟩, 1⟩ : AddForm).end_time = none ∨
      validate_time (⟨⟨2012, 1, 1⟩, (9, 0), (9, 0), "WKDAY", ⟨0, 15⟩, 1⟩ : AddForm).start_time
        (⟨⟨2012, 1, 1⟩, (9, 0), (9, 0), "WKDAY", ⟨0, 15⟩, 1⟩ : AddForm).end_time = some false ∨
      insertEntry []
        (addFormRow [] ⟨⟨2012, 1, 1⟩, (9, 0), (9, 0), "WKDAY", ⟨0, 15⟩, 1⟩) = .error .duplicate) ∧
    (∃ msg, (ajax_add_entry [] ⟨⟨2012, 1, 1⟩, (9, 0), (9, 0), "WKDAY", ⟨0, 15⟩, 1⟩).1 =
        Except.ok ⟨none, some msg, none⟩ ∧
      msg ≠ "" ∧ (ajax_add_entry [] ⟨⟨2012, 1, 1⟩, (9, 0), (9, 0), "WKDAY", ⟨0, 15⟩, 1⟩).2 = []) :=
  ⟨Or.inr (Or.inl (by decide)),
    ajax_error_replies_report_error_and_no_success.1 []
      ⟨⟨2012, 1, 1⟩, (9, 0), (9, 0), "WKDAY", ⟨0, 15⟩, 1⟩ (Or.inr (Or.inl (by decide)))⟩

/-- C9 (implicit): the undecorated `views.ajax` handler rejects a request
only when the start time is strictly after the end time, so a well-formed
request whose start equals its end passes the check and the entry is
saved (the request then aborts in the calendar regeneration for the
hard-coded user, after the save) — while `validate_time`, the check used
by the `ajax_add_entry`/`ajax_change_entry` endpoints, returns false for
the same pair: the two validation paths are not equivalent. -/
theorem views_ajax_saves_equal_times_but_validate_time_rejects :
    (∀ (store : List TRow) (form : VForm) (s e : PTime),
      mkTime form.start_time.1 form.start_time.2 = some s →
      mkTime form.end_time.1 form.end_time.2 = some e →
      (views_ajax store form).1 = .ok ⟨false, "Start time after end time", none⟩ →
      timeGtB s e = true) ∧
    (∀ (store : List TRow) (form : VForm),
      form.end_time = form.start_time →
      form.start_time.1 < 24 → form.start_time.2 < 60 →
      store.any (keyMatch 1 form.entry_date) = false →
      views_ajax store form =
        (.error .doesNotExist,
          store ++ [viewsAjaxRow store form ⟨form.start_time.1, form.start_time.2⟩
            ⟨form.start_time.1, form.start_time.2⟩]) ∧
      lookupEntry (store ++ [viewsAjaxRow store form ⟨form.start_time.1, form.start_time.2⟩
          ⟨form.start_time.1, form.start_time.2⟩]) 1 form.entry_date =
        some (viewsAjaxRow store form ⟨form.start_time.1, form.start_time.2⟩
          ⟨form.start_time.1, form.start_time.2⟩)) ∧
    (∀ t : Nat × Nat, t.1 < 24 → t.2 < 60 → validate_time t t = some false) := by
  refine ⟨?_, ?_, ?_⟩
  · intro store form s e hs he hrej
    by_cases hgt : timeGtB s e = true
    · exact hgt
    · exfalso
      rw [Bool.not_eq_true] at hgt
      rcases hins : insertEntry store (viewsAjaxRow store form s e) with err | s'
      · cases err
        have hres : views_ajax store form =
            (.ok ⟨false, "There is a duplicate entry for this value", none⟩, store) := by
          simp only [views_ajax, hs, he, hgt, Bool.false_eq_true, if_false, hins]
        rw [hres] at hrej
        simp at hrej
      · have hres : views_ajax store form = (.error .doesNotExist, s') := by
          simp only [views_ajax, hs, he, hgt, Bool.false_eq_true, if_false, hins]
        rw [hres] at hrej
        simp at hrej
  · intro store form heq hh hm hdup
    have hmk : mkTime form.start_time.1 form.start_time.2 =
        some ⟨form.start_time.1, form.start_time.2⟩ := by
      simp [mkTime, hh, hm]
    have hgt : timeGtB ⟨form.start_time.1, form.start_time.2⟩
        ⟨form.start_time.1, form.start_time.2⟩ = false := by
      simp [timeGtB]
    have hins : insertEntry store (viewsAjaxRow store form ⟨form.start_time.1, form.start_time.2⟩
        ⟨form.start_time.1, form.start_time.2⟩) =
        .ok (store ++ [viewsAjaxRow store form ⟨form.start_time.1, form.start_time.2⟩
          ⟨form.start_time.1, form.start_time.2⟩]) := by
      unfold insertEntry
      rw [show (viewsAjaxRow store form ⟨form.start_time.1, form.start_time.2⟩
        ⟨form.start_time.1, form.start_time.2⟩).user_id = 1 from rfl]
      rw [show (viewsAjaxRow store form ⟨form.start_time.1, form.start_time.2⟩
        ⟨form.start_time.1, form.start_time.2⟩).entry_date = form.entry_date from rfl]
      rw [hdup]
      rfl
    refine ⟨?_, lookupEntry_append_self (r := viewsAjaxRow store form
      ⟨form.start_time.1, form.start_time.2⟩ ⟨form.start_time.1, form.start_time.2⟩) hdup⟩
    unfold views_ajax
    rw [heq, hmk]
    simp only [hgt, Bool.false_eq_true, if_false, hins]
  · intro t h1 h2
    simp [validate_time, mkTime, timeLtB, h1, h2]

/-- Witness for C9: the concrete request (2012-01-01, 09:00–09:00, WKDAY)
against an empty table passes the `views.ajax` check and the entry is
saved, although `validate_time` rejects the equal pair. -/
theorem views_ajax_saves_equal_times_but_validate_time_rejects_witness :
    (((⟨⟨2012, 1, 1⟩, (9, 0), (9, 0), "WKDAY"⟩ : VForm).end_time =
        (⟨⟨2012, 1, 1⟩, (9, 0), (9, 0), "WKDAY"⟩ : VForm).start_time) ∧
      (9 : Nat) < 24 ∧ (0 : Nat) < 60 ∧
      ([] : List TRow).any (keyMatch 1 ⟨2012, 1, 1⟩) = false) ∧
    (views_ajax [] ⟨⟨2012, 1, 1⟩, (9, 0), (9, 0), "WKDAY"⟩ =
        (.error .doesNotExist,
          [] ++ [viewsAjaxRow [] ⟨⟨2012, 1, 1⟩, (9, 0), (9, 0), "WKDAY"⟩ ⟨9, 0⟩ ⟨9, 0⟩]) ∧
      lookupEntry ([] ++ [viewsAjaxRow [] ⟨⟨2012, 1, 1⟩, (9, 0), (9, 0), "WKDAY"⟩ ⟨9, 0⟩ ⟨9, 0⟩])
          1 ⟨2012, 1, 1⟩ =
        some (viewsAjaxRow [] ⟨⟨2012, 1, 1⟩, (9, 0), (9, 0), "WKDAY"⟩ ⟨9, 0⟩ ⟨9, 0⟩)) ∧
    ((9 : Nat) < 24 ∧ (0 : Nat) < 60 ∧ validate_time (9, 0) (9, 0) = some false) :=
  ⟨⟨rfl, by decide, by decide, rfl⟩,
    views_ajax_saves_equal_times_but_validate_time_rejects.2.1 []
      ⟨⟨2012, 1, 1⟩, (9, 0), (9, 0), "WKDAY"⟩ rfl (by decide) (by decide) rfl,
    by decide, by decide,
    views_ajax_saves_equal_times_but_validate_time_rejects.2.2 (9, 0) (by decide) (by decide)⟩

end Timetracker
